import Mathlib

/-!
# reporter-merger: the selection controller, the conversion client, the file
lister and the configuration wizard

A shallow embedding of `main.go` and `config/config.go`.

* Go strings are byte sequences (`GoString`); `len` is the byte length and
  slicing cuts bytes.  Key names (`tea.KeyMsg.String()`) are always valid
  UTF-8 text, so they are Lean strings, turned into bytes by `str`.
* `model.selected` is a Go `int`; it is only ever stepped by one under a
  guard, so it is an `Int` without wrap-around.
* An `error` value is represented by its message (`Error()`), the only thing
  the program observes of it.
* A run-time panic (index out of range) is the result `none`.
-/

namespace ReporterMerger

/-- Go `string`: a sequence of bytes. -/
abbrev GoString := List UInt8

/-- The bytes (UTF-8) of a piece of text, used for the string literals of the source. -/
def str (s : String) : GoString := s.toUTF8.data.toList

/-- Slice indexing `xs[i]` with a Go `int` index: `none` is the index-out-of-range panic. -/
def index {α : Type} (xs : List α) (i : Int) : Option α :=
  if 0 ≤ i then xs[i.toNat]? else none

/-! ## main.go: data model -/

/-- Go `type item struct { filename string; modTime time.Time; path string }`;
the modification time is an abstract instant. -/
structure item where
  filename : GoString
  modTime : Nat
  path : GoString
deriving DecidableEq

/-- Go `type model struct { items []item; selected int; converting bool; err error }`. -/
structure model where
  items : List item
  selected : Int
  converting : Bool
  err : Option GoString
deriving DecidableEq

/-- The messages `model.Update` distinguishes in its type switch: a `tea.KeyMsg`
(by its `String()`), an `errorMsg` (by its message), `successMsg{}`, and any
other `tea.Msg`. -/
inductive Msg where
  | key (s : String)
  | errorMsg (e : GoString)
  | successMsg
  | other
deriving DecidableEq

/-- A non-nil `tea.Cmd` returned by `model.Update`: `tea.Quit`, or the method value
`m.convertToPDF`, which carries the receiver it was taken from. -/
inductive Cmd where
  | quit
  | convertToPDF (receiver : model)
deriving DecidableEq

/-- The composite literal `model{items: items}` that `initialModel` returns:
every other field has its zero value. -/
def newModel (items : List item) : model :=
  { items := items, selected := 0, converting := false, err := none }

/-- Go `func (m model) Init() tea.Cmd { return nil }`. -/
def model.Init (_m : model) : Option Cmd := none

/-- Go `func (m model) Update(msg tea.Msg) (tea.Model, tea.Cmd)`. -/
def model.Update (m : model) (msg : Msg) : model × Option Cmd :=
  match msg with
  | .key s =>
    if s = "ctrl+c" ∨ s = "q" then (m, some .quit)
    else if s = "up" ∨ s = "k" then
      if m.selected > 0 then ({ m with selected := m.selected - 1 }, none) else (m, none)
    else if s = "down" ∨ s = "j" then
      if m.selected < (m.items.length : Int) - 1 then
        ({ m with selected := m.selected + 1 }, none)
      else (m, none)
    else if s = "enter" then
      if m.items.length > 0 ∧ m.converting = false then
        (({ m with converting := true } : model),
          some (.convertToPDF ({ m with converting := true } : model)))
      else (m, none)
    else (m, none)
  | .errorMsg e => ({ m with err := some e, converting := false }, none)
  | .successMsg => ({ m with converting := false }, none)
  | .other => (m, none)

/-- The rendering facilities `model.View` takes from outside the repository:
the three lipgloss styles, the padding of `fmt`'s `%-Ns` verb, and
`time.Time.Format("2006-01-02 15:04:05")`. -/
structure Renderer where
  docStyle : GoString → GoString
  headerStyle : GoString → GoString
  selectedStyle : GoString → GoString
  padRight : Nat → GoString → GoString
  formatTime : Nat → GoString

/-- Go `fmt.Sprintf("%-30s | %-20s", a, b)`. -/
def Renderer.columns (r : Renderer) (a b : GoString) : GoString :=
  r.padRight 30 a ++ str " | " ++ r.padRight 20 b

/-- Go `strings.Join(rows, sep)`. -/
def join (sep : GoString) : List GoString → GoString
  | [] => []
  | [x] => x
  | x :: y :: rest => x ++ sep ++ join sep (y :: rest)

/-- Go `func (m model) View() string`; `none` is the panic of `m.items[m.selected]`. -/
def model.View (r : Renderer) (m : model) : Option GoString :=
  match m.err with
  | some e => some (str "Error: " ++ e ++ str "\nPress q to quit")
  | none =>
    if m.converting then
      match index m.items m.selected with
      | none => none
      | some it => some (str "Converting " ++ it.filename ++ str " to PDF...\nPress q to quit")
    else if m.items.length = 0 then
      some (str "No markdown files found. Press q to quit.")
    else
      let head := r.headerStyle (r.columns (str "Filename") (str "Last Updated At"))
      let sep := List.replicate 55 (45 : UInt8)
      let rows := m.items.enum.map fun p =>
        let row := r.columns p.2.filename (r.formatTime p.2.modTime)
        if (p.1 : Int) = m.selected then r.selectedStyle (str "> " ++ row)
        else str "  " ++ row
      some (r.docStyle (join (str "\n")
        ([head, sep] ++ rows ++ [str "\nUse ↑/↓ to select, Enter to convert, q to quit."])))

/-- The model after the messages `msgs` have been delivered, in order, through
`model.Update` (the commands are dropped). -/
def deliverAll (m : model) (msgs : List Msg) : model :=
  msgs.foldl (fun acc msg => (acc.Update msg).1) m

/-- The program with its pending conversion tasks: the bubbletea runtime runs a
returned command in the background and delivers the message it produces to
`Update`, once. -/
structure Runtime where
  m : model
  inFlight : Nat
deriving DecidableEq

/-- Whether a message is the outcome of a conversion task. -/
def Msg.isOutcome : Msg → Bool
  | .errorMsg _ => true
  | .successMsg => true
  | _ => false

/-- One step of a run: the message goes through `model.Update`; an outcome message
ends the task that produced it (and cannot arrive when no task is in flight); a
returned `m.convertToPDF` starts a task. -/
def Runtime.step (rt : Runtime) (msg : Msg) : Option Runtime :=
  if msg.isOutcome ∧ rt.inFlight = 0 then none
  else
    let done := if msg.isOutcome then rt.inFlight - 1 else rt.inFlight
    match rt.m.Update msg with
    | (m1, some (.convertToPDF _)) => some { m := m1, inFlight := done + 1 }
    | (m1, _) => some { m := m1, inFlight := done }

/-- A run of the program from `initialModel`'s result over the given messages;
`none` when the sequence is not a run (an outcome without a task). -/
def Runtime.run (items : List item) (msgs : List Msg) : Option Runtime :=
  msgs.foldlM Runtime.step { m := newModel items, inFlight := 0 }

/-! ## main.go: the conversion client -/

/-- Go `strings.HasSuffix(s, suffix)`:
`len(s) >= len(suffix) && s[len(s)-len(suffix):] == suffix`. -/
def HasSuffix (s suffix : GoString) : Bool :=
  decide (s.length ≥ suffix.length) && (s.drop (s.length - suffix.length) == suffix)

/-- Go `strings.TrimSuffix(s, suffix)`: `s[:len(s)-len(suffix)]` when `s` has the suffix,
else `s`. -/
def TrimSuffix (s suffix : GoString) : GoString :=
  if HasSuffix s suffix then s.take (s.length - suffix.length) else s

/-- The loop of `filepath.Ext` with `i + 1` as the counter:
`for i := len(path) - 1; i >= 0 && !os.IsPathSeparator(path[i]); i--` returning
`path[i:]` at the first `'.'`, and `""` when the loop ends. The separator is `'/'`. -/
def extLoop (path : GoString) : Nat → GoString
  | 0 => []
  | i + 1 =>
    match path[i]? with
    | none => []
    | some c =>
      if c = 47 then []
      else if c = 46 then path.drop i
      else extLoop path i

/-- Go `filepath.Ext(path)`: the suffix beginning at the final dot of the final path
element, empty if there is no dot. -/
def Ext (path : GoString) : GoString := extLoop path path.length

/-- An `*http.Response` as the client reads it: the status code, the bytes the body
delivers, and the error that ends the body stream instead of EOF, if any. -/
structure Response where
  statusCode : Nat
  body : GoString
  bodyErr : Option GoString

/-- One part of a multipart form written with `CreateFormFile(fieldname, filename)`. -/
structure FormFile where
  fieldname : GoString
  filename : GoString
  content : GoString
deriving DecidableEq

/-- The `*http.Request` the client builds. -/
structure Request where
  method : GoString
  url : GoString
  contentType : GoString
  files : List FormFile
deriving DecidableEq

/-- Failures of the calls of `convertToPDF` that do not depend on the modelled
state: each field is the error the call returns, `none` when it succeeds.
`copyOut` carries the number of bytes written before a failed write. -/
structure Faults where
  createFormFile1 : Option GoString
  partWrite : Option GoString
  openSrc : Option GoString
  createFormFile2 : Option GoString
  copyIn : Option GoString
  writerClose : Option GoString
  newRequest : Option GoString
  create : Option GoString
  copyOut : Option (Nat × GoString)

/-- No call fails. -/
def Faults.none : Faults :=
  { createFormFile1 := Option.none, partWrite := Option.none, openSrc := Option.none,
    createFormFile2 := Option.none, copyIn := Option.none, writerClose := Option.none,
    newRequest := Option.none, create := Option.none, copyOut := Option.none }

/-- The filesystem: the content of the regular file at each path, if there is one. -/
abbrev Files := GoString → Option GoString

/-- What `convertToPDF` runs against: the configured endpoint
(`cfg.Gotenberg.Endpoint`), the filesystem, the multipart boundary the writer
picks, the conversion service behind `client.Do` (a transport error or a response),
and the failures of the remaining calls. -/
structure World where
  endpoint : GoString
  files : Files
  boundary : GoString
  service : Request → Except GoString Response
  faults : Faults

/-- The inline HTML document sent as `index.html`. -/
def htmlTemplate : GoString :=
  str ("<!doctype html>\n<html lang=\"en\">\n  <head>\n    <meta charset=\"utf-8\">\n" ++
    "    <title>Markdown to PDF</title>\n  </head>\n  <body>\n" ++
    "    \x7b\x7b toHTML \"file.md\" \x7d\x7d\n  </body>\n</html>")

/-- The request `convertToPDF` posts for a source file with the given content. -/
def conversionRequest (w : World) (content : GoString) : Request :=
  { method := str "POST",
    url := w.endpoint ++ str "/forms/chromium/convert/markdown",
    contentType := str "multipart/form-data; boundary=" ++ w.boundary,
    files := [{ fieldname := str "files", filename := str "index.html",
                content := htmlTemplate },
              { fieldname := str "files", filename := str "file.md", content := content }] }

/-- Go `fmt.Errorf("conversion failed with status: %d, body: %s", code, body)`, as its message. -/
def statusError (code : Nat) (body : GoString) : GoString :=
  str "conversion failed with status: " ++ str (toString code) ++ str ", body: " ++ body

/-- Go `strings.TrimSuffix(it.path, filepath.Ext(it.path)) + ".pdf"`. -/
def outputPath (path : GoString) : GoString :=
  TrimSuffix path (Ext path) ++ str ".pdf"

/-- The filesystem after the file at `path` has been given the content `content`. -/
def Files.write (fs : Files) (path content : GoString) : Files :=
  fun q => if q = path then some content else fs q

/-- Go `func (m model) convertToPDF() tea.Msg`, with the filesystem it leaves behind;
`none` is the panic of `m.items[m.selected]`. -/
def model.convertToPDF (w : World) (m : model) : Option (Msg × Files) :=
  match index m.items m.selected with
  | Option.none => Option.none
  | some it =>
    some <|
    match w.faults.createFormFile1 with
    | some e => (.errorMsg e, w.files)
    | Option.none =>
    match w.faults.partWrite with
    | some e => (.errorMsg e, w.files)
    | Option.none =>
    match w.faults.openSrc with
    | some e => (.errorMsg e, w.files)
    | Option.none =>
    match w.files it.path with
    | Option.none =>
      (.errorMsg (str "open " ++ it.path ++ str ": no such file or directory"), w.files)
    | some content =>
    match w.faults.createFormFile2 with
    | some e => (.errorMsg e, w.files)
    | Option.none =>
    match w.faults.copyIn with
    | some e => (.errorMsg e, w.files)
    | Option.none =>
    match w.faults.writerClose with
    | some e => (.errorMsg e, w.files)
    | Option.none =>
    match w.faults.newRequest with
    | some e => (.errorMsg e, w.files)
    | Option.none =>
    match w.service (conversionRequest w content) with
    | .error e => (.errorMsg e, w.files)
    | .ok resp =>
      if resp.statusCode ≠ 200 then
        (.errorMsg (statusError resp.statusCode resp.body), w.files)
      else
        match w.faults.create with
        | some e => (.errorMsg e, w.files)
        | Option.none =>
          match w.faults.copyOut with
          | some (n, e) =>
            (.errorMsg e, w.files.write (outputPath it.path) (resp.body.take n))
          | Option.none =>
            match resp.bodyErr with
            | some e => (.errorMsg e, w.files.write (outputPath it.path) resp.body)
            | Option.none => (.successMsg, w.files.write (outputPath it.path) resp.body)

/-! ## main.go: the file lister -/

/-- A directory entry as `os.Lstat` reports it (`os.FileInfo`): a non-directory with
its name and modification time, or a directory with the entries `readDirNames`
lists for it, in that order. -/
inductive Entry where
  | file (name : GoString) (modTime : Nat)
  | dir (name : GoString) (modTime : Nat) (children : List Entry)

/-- Go `info.Name()`. -/
def Entry.Name : Entry → GoString
  | .file n _ => n
  | .dir n _ _ => n

/-- Go `info.ModTime()`. -/
def Entry.ModTime : Entry → Nat
  | .file _ t => t
  | .dir _ t _ => t

/-- Go `info.IsDir()`. -/
def Entry.IsDir : Entry → Bool
  | .file _ _ => false
  | .dir _ _ _ => true

/-- Go `filepath.Join(dir, name)` for a cleaned directory path and the name of one of its
entries: the name alone under ".", else the two joined by the separator. -/
def Join (dir name : GoString) : GoString :=
  if dir = str "." then name else dir ++ str "/" ++ name

mutual
/-- The recursion of `filepath.Walk` when no `Lstat` or directory read fails and the
callback returns nil: the callback sees the entry, then, for a directory, every
listed name is joined to the path and walked in turn. -/
def walk {σ : Type} (fn : GoString → Entry → σ → σ) : Entry → GoString → σ → σ
  | .file n t, path, s => fn path (.file n t) s
  | .dir n t children, path, s => walkNames fn children path (fn path (.dir n t children) s)
/-- The loop `for _, name := range names` of `walk`. -/
def walkNames {σ : Type} (fn : GoString → Entry → σ → σ) : List Entry → GoString → σ → σ
  | [], _, s => s
  | c :: rest, path, s => walkNames fn rest path (walk fn c (Join path c.Name) s)
end

/-- The callback `initialModel` passes to `filepath.Walk`, as a function of the
`items` it appends to (its `err` argument is nil). -/
def walkFn (path : GoString) (info : Entry) (items : List item) : List item :=
  if !info.IsDir && HasSuffix path (str ".md") then
    items ++ [{ filename := info.Name, modTime := info.ModTime, path := path }]
  else items

/-- Go `func initialModel() model`, over the entries of the working directory: the walk
starts at ".", which `Lstat` reports as a directory named ".". -/
def initialModel (cwd : List Entry) : model :=
  newModel (walk walkFn (.dir (str ".") 0 cwd) (str ".") [])

mutual
/-- The entries of a tree in pre-order, each with its path relative to the root. -/
def preorder : Entry → GoString → List (GoString × Entry)
  | .file n t, path => [(path, .file n t)]
  | .dir n t children, path => (path, .dir n t children) :: preorderAll children path
/-- The pre-order listing of the entries of a directory, one subtree after the other. -/
def preorderAll : List Entry → GoString → List (GoString × Entry)
  | [], _ => []
  | c :: rest, path => preorder c (Join path c.Name) ++ preorderAll rest path
end

/-- The candidate entries as the specification words them: of a pre-order listing,
the non-directory entries whose name ends with ".md", each with its name, its
modification time and its path. -/
def candidates (listing : List (GoString × Entry)) : List item :=
  (listing.filter fun pe => !pe.2.IsDir && HasSuffix pe.2.Name (str ".md")).map
    fun pe => { filename := pe.2.Name, modTime := pe.2.ModTime, path := pe.1 }

/-- A working directory: `a.md`, `notes.txt`, a directory `x.md` holding `b.md` and
`md`, and `README.MD`. -/
def sampleTree : List Entry :=
  [.file (str "a.md") 1, .file (str "notes.txt") 2,
   .dir (str "x.md") 3 [.file (str "b.md") 4, .file (str "md") 5],
   .file (str "README.MD") 6]

/-! ## config/config.go: the first-run wizard -/

/-- Go `type configModel struct { endpoint string; index int; err error }`. -/
structure configModel where
  endpoint : GoString
  index : Int
  err : Option GoString
deriving DecidableEq

/-- The only non-nil command of the wizard, `tea.Quit`. -/
inductive WizardCmd where
  | quit
deriving DecidableEq

/-- Go `func initialConfigModel() configModel`. -/
def initialConfigModel : configModel :=
  { endpoint := str "http://localhost:3000", index := 0, err := none }

/-- Go `func (m configModel) Init() tea.Cmd { return nil }`. -/
def configModel.Init (_m : configModel) : Option WizardCmd := none

/-- Go `func (m configModel) Update(msg tea.Msg) (tea.Model, tea.Cmd)`; `len` is the
byte length and `m.endpoint[:len(m.endpoint)-1]` drops the last byte. -/
def configModel.Update (m : configModel) (msg : Msg) : configModel × Option WizardCmd :=
  match msg with
  | .key s =>
    if s = "ctrl+c" ∨ s = "q" then (m, some .quit)
    else if s = "enter" then
      if m.index = 0 then ({ m with index := 1 }, none) else (m, some .quit)
    else if s = "backspace" then
      if m.index = 0 ∧ m.endpoint.length > 0 then
        ({ m with endpoint := m.endpoint.take (m.endpoint.length - 1) }, none)
      else (m, none)
    else
      if m.index = 0 ∧ (str s).length = 1 then
        ({ m with endpoint := m.endpoint ++ str s }, none)
      else (m, none)
  | _ => (m, none)

/-- Go `func (m configModel) View() string`. -/
def configModel.View (m : configModel) : GoString :=
  str "Welcome to Markdown to PDF Converter!\n\n" ++
  str "Let\x27s set up your configuration.\n\n" ++
  (if m.index = 0 then
    str "Enter Gotenberg endpoint (default: http://localhost:3000):\n" ++
    m.endpoint ++
    str "\n\nPress Enter to continue, Ctrl+C to quit"
  else
    str "Configuration saved successfully!\n" ++
    str "Press Enter to start the application")

/-! ## Selection controller: predicates -/

/-- The cursor is in range: never negative, below the length of a non-empty list,
and 0 on an empty list. -/
def CursorOk (m : model) : Prop :=
  0 ≤ m.selected ∧ (m.items ≠ [] → m.selected < m.items.length) ∧
    (m.items = [] → m.selected = 0)

instance (m : model) : Decidable (CursorOk m) := by
  unfold CursorOk; infer_instance

/-- The keys "ctrl+c" and "q". -/
def isQuitKey (k : String) : Prop := k = "ctrl+c" ∨ k = "q"

instance (k : String) : Decidable (isQuitKey k) := by
  unfold isQuitKey; infer_instance

/-- The keys "up" and "k". -/
def isUpKey (k : String) : Prop := k = "up" ∨ k = "k"

instance (k : String) : Decidable (isUpKey k) := by
  unfold isUpKey; infer_instance

/-- The keys "down" and "j". -/
def isDownKey (k : String) : Prop := k = "down" ∨ k = "j"

instance (k : String) : Decidable (isDownKey k) := by
  unfold isDownKey; infer_instance

/-- In a run the number of tasks in flight is 1 while `converting` is set and 0 otherwise. -/
def Runtime.Balanced (rt : Runtime) : Prop :=
  rt.inFlight = if rt.m.converting = true then 1 else 0

/-- Two candidate entries used to evaluate the controller on a concrete list. -/
def sampleItems : List item :=
  [{ filename := str "a.md", modTime := 0, path := str "a.md" },
   { filename := str "b.md", modTime := 0, path := str "docs/b.md" }]

/-- The runtime after a conversion of the first sample entry has been dispatched. -/
def sampleRuntime : Runtime :=
  { m := { items := sampleItems, selected := 0, converting := true, err := none },
    inFlight := 1 }

/-- The Error state over `sampleItems`: a failed conversion has been reported. -/
def sampleErrorModel : model :=
  { items := sampleItems, selected := 0, converting := false, err := some (str "boom") }

/-- A filesystem holding the single source file `a.md`. -/
def sampleFiles : Files :=
  fun q => if q = str "a.md" then some (str "# title") else none

/-- A world whose conversion service answers every request with 503 and body "busy". -/
def busyWorld : World :=
  { endpoint := str "http://localhost:3000", files := sampleFiles, boundary := str "xyz",
    service := fun _ => .ok { statusCode := 503, body := str "busy", bodyErr := none },
    faults := Faults.none }

/-- A world whose conversion service answers every request with 200 and body "%PDF". -/
def pdfWorld : World :=
  { endpoint := str "http://localhost:3000", files := sampleFiles, boundary := str "xyz",
    service := fun _ => .ok { statusCode := 200, body := str "%PDF", bodyErr := none },
    faults := Faults.none }

/-! ## THEOREMS -/

/-! ## Selection controller: lemmas -/

theorem length_cast_pos {α : Type} {xs : List α} (h : xs ≠ []) : (0 : Int) < xs.length := by
  have := List.length_pos.mpr h
  omega

theorem Update_items (m : model) (msg : Msg) : (m.Update msg).1.items = m.items := by
  cases msg with
  | key s =>
    simp only [model.Update]
    split_ifs <;> rfl
  | _ => rfl

theorem Update_cursorOk (m : model) (msg : Msg) (h : CursorOk m) : CursorOk (m.Update msg).1 := by
  obtain ⟨h0, h1, h2⟩ := h
  cases msg with
  | key s =>
    simp only [model.Update]
    split_ifs with c1 c2 c3 c4 c5 c6 c7
    · exact ⟨h0, h1, h2⟩
    · refine ⟨by simp only; omega, fun hne => ?_, fun he => ?_⟩
      · have := h1 hne
        simp only; omega
      · have := h2 he
        simp only; omega
    · exact ⟨h0, h1, h2⟩
    · refine ⟨by simp only; omega, fun _ => by simp only; omega, fun he => ?_⟩
      simp only at he c5
      rw [he] at c5
      have := h2 he
      simp at c5
      omega
    · exact ⟨h0, h1, h2⟩
    · exact ⟨h0, h1, h2⟩
    · exact ⟨h0, h1, h2⟩
    · exact ⟨h0, h1, h2⟩
  | errorMsg e => exact ⟨h0, h1, h2⟩
  | successMsg => exact ⟨h0, h1, h2⟩
  | other => exact ⟨h0, h1, h2⟩

theorem Update_converting_nonempty (m : model) (msg : Msg)
    (h : m.converting = true → m.items ≠ []) :
    (m.Update msg).1.converting = true → (m.Update msg).1.items ≠ [] := by
  cases msg with
  | key s =>
    simp only [model.Update]
    split_ifs with c1 c2 c3 c4 c5 c6 c7
    all_goals first
      | exact h
      | (intro _; exact List.ne_nil_of_length_pos c7.1)
  | errorMsg e => intro hc; simp [model.Update] at hc
  | successMsg => intro hc; simp [model.Update] at hc
  | other => exact h

theorem deliverAll_items (msgs : List Msg) (m : model) : (deliverAll m msgs).items = m.items := by
  induction msgs generalizing m with
  | nil => rfl
  | cons msg rest ih =>
    show (deliverAll (m.Update msg).1 rest).items = m.items
    rw [ih, Update_items]

theorem deliverAll_cursorOk (msgs : List Msg) (m : model) (h : CursorOk m) :
    CursorOk (deliverAll m msgs) := by
  induction msgs generalizing m with
  | nil => exact h
  | cons msg rest ih => exact ih (m.Update msg).1 (Update_cursorOk m msg h)

theorem deliverAll_converting_nonempty (msgs : List Msg) (m : model)
    (h : m.converting = true → m.items ≠ []) :
    (deliverAll m msgs).converting = true → (deliverAll m msgs).items ≠ [] := by
  induction msgs generalizing m with
  | nil => exact h
  | cons msg rest ih => exact ih (m.Update msg).1 (Update_converting_nonempty m msg h)

theorem newModel_cursorOk (items : List item) : CursorOk (newModel items) :=
  ⟨le_refl _, fun h => length_cast_pos h, fun _ => rfl⟩

theorem index_isSome {α : Type} (xs : List α) (i : Int) (h0 : 0 ≤ i) (h1 : i < xs.length) :
    (index xs i).isSome = true := by
  unfold index
  rw [if_pos h0]
  have : i.toNat < xs.length := by omega
  simp [List.getElem?_eq_getElem this]

theorem Update_quit (m : model) (k : String) (hk : isQuitKey k) :
    m.Update (.key k) = (m, some .quit) := by
  have hk1 : k = "ctrl+c" ∨ k = "q" := hk
  simp only [model.Update, if_pos hk1]

theorem Update_up (m : model) (k : String) (hk : isUpKey k) :
    m.Update (.key k) =
      (if m.selected > 0 then ({ m with selected := m.selected - 1 }, none) else (m, none)) := by
  have hk1 : k = "up" ∨ k = "k" := hk
  have hq : ¬ (k = "ctrl+c" ∨ k = "q") := by
    rcases hk1 with rfl | rfl <;> decide
  simp only [model.Update, if_neg hq, if_pos hk1]

theorem Update_down (m : model) (k : String) (hk : isDownKey k) :
    m.Update (.key k) =
      (if m.selected < (m.items.length : Int) - 1 then
        ({ m with selected := m.selected + 1 }, none) else (m, none)) := by
  have hk1 : k = "down" ∨ k = "j" := hk
  have hq : ¬ (k = "ctrl+c" ∨ k = "q") := by
    rcases hk1 with rfl | rfl <;> decide
  have hu : ¬ (k = "up" ∨ k = "k") := by
    rcases hk1 with rfl | rfl <;> decide
  simp only [model.Update, if_neg hq, if_neg hu, if_pos hk1]

theorem Update_enter (m : model) :
    m.Update (.key "enter") =
      (if m.items.length > 0 ∧ m.converting = false then
        (({ m with converting := true } : model),
          some (.convertToPDF ({ m with converting := true } : model)))
      else (m, none)) := by
  have hq : ¬ ("enter" = "ctrl+c" ∨ "enter" = "q") := by decide
  have hu : ¬ ("enter" = "up" ∨ "enter" = "k") := by decide
  have hd : ¬ ("enter" = "down" ∨ "enter" = "j") := by decide
  simp only [model.Update, if_neg hq, if_neg hu, if_neg hd, if_true]

theorem Update_otherKey (m : model) (k : String) (hq : ¬ isQuitKey k) (hu : ¬ isUpKey k)
    (hd : ¬ isDownKey k) (he : k ≠ "enter") : m.Update (.key k) = (m, none) := by
  have hq1 : ¬ (k = "ctrl+c" ∨ k = "q") := hq
  have hu1 : ¬ (k = "up" ∨ k = "k") := hu
  have hd1 : ¬ (k = "down" ∨ k = "j") := hd
  simp only [model.Update, if_neg hq1, if_neg hu1, if_neg hd1, if_neg he]

theorem Runtime.step_balanced (rt rt1 : Runtime) (msg : Msg) (h : rt.Balanced)
    (hs : rt.step msg = some rt1) : rt1.Balanced := by
  unfold Runtime.Balanced at h ⊢
  unfold Runtime.step at hs
  cases msg with
  | key k =>
    simp only [Msg.isOutcome, Bool.false_eq_true, false_and, if_false] at hs
    by_cases hq : isQuitKey k
    · rw [Update_quit rt.m k hq] at hs
      simp only [Option.some.injEq] at hs
      subst hs
      exact h
    by_cases hu : isUpKey k
    · rw [Update_up rt.m k hu] at hs
      split_ifs at hs <;> simp only [Option.some.injEq] at hs <;> subst hs <;> exact h
    by_cases hd : isDownKey k
    · rw [Update_down rt.m k hd] at hs
      split_ifs at hs <;> simp only [Option.some.injEq] at hs <;> subst hs <;> exact h
    by_cases he : k = "enter"
    · subst he
      rw [Update_enter rt.m] at hs
      split_ifs at hs with c1
      · simp only [Option.some.injEq] at hs
        subst hs
        rw [c1.2] at h
        simp only [Bool.false_eq_true, if_false] at h
        simp [h]
      · simp only [Option.some.injEq] at hs
        subst hs
        exact h
    · rw [Update_otherKey rt.m k hq hu hd he] at hs
      simp only [Option.some.injEq] at hs
      subst hs
      exact h
  | errorMsg e =>
    simp only [Msg.isOutcome, true_and, if_true, model.Update] at hs
    split_ifs at hs with c
    simp only [Option.some.injEq] at hs
    subst hs
    split_ifs at h <;> simp <;> omega
  | successMsg =>
    simp only [Msg.isOutcome, true_and, if_true, model.Update] at hs
    split_ifs at hs with c
    simp only [Option.some.injEq] at hs
    subst hs
    split_ifs at h <;> simp <;> omega
  | other =>
    simp only [Msg.isOutcome, Bool.false_eq_true, false_and, if_false, model.Update,
      Option.some.injEq] at hs
    subst hs
    exact h

theorem Runtime.foldlM_balanced (msgs : List Msg) (rt rt1 : Runtime) (h : rt.Balanced)
    (hs : msgs.foldlM Runtime.step rt = some rt1) : rt1.Balanced := by
  induction msgs generalizing rt with
  | nil =>
    simp only [List.foldlM_nil, Option.pure_def, Option.some.injEq] at hs
    subst hs
    exact h
  | cons msg rest ih =>
    simp only [List.foldlM_cons, Option.bind_eq_bind] at hs
    cases hstep : rt.step msg with
    | none => rw [hstep] at hs; simp at hs
    | some rt2 =>
      rw [hstep] at hs
      exact ih rt2 (Runtime.step_balanced rt rt2 msg h hstep) hs

/-! ## Selection controller: the claims -/

/-- C1. Cursor-bounds invariant: from the initial model over any candidate list,
after any finite sequence of messages the list is the same, the cursor is not
negative, is below the length of a non-empty list, and is 0 on an empty list. -/
theorem cursor_bounds_invariant (items : List item) (msgs : List Msg) :
    (deliverAll (newModel items) msgs).items = items ∧
    0 ≤ (deliverAll (newModel items) msgs).selected ∧
    (items ≠ [] → (deliverAll (newModel items) msgs).selected < items.length) ∧
    (items = [] → (deliverAll (newModel items) msgs).selected = 0) := by
  have hi : (deliverAll (newModel items) msgs).items = items :=
    deliverAll_items msgs (newModel items)
  have hc := deliverAll_cursorOk msgs (newModel items) (newModel_cursorOk items)
  obtain ⟨h0, h1, h2⟩ := hc
  rw [hi] at h1 h2
  exact ⟨hi, h0, h1, h2⟩

/-- C2. Clamped one-step navigation: in the Idle state with the cursor in range, an
up key gives `max (selected - 1) 0` and a down key on a non-empty list gives
`min (selected + 1) (len - 1)`; at index 0 an up key, at the last index a down
key, and on an empty list either key, return the model unchanged; only `selected`
changes and no command is returned. -/
theorem clamped_navigation (m : model) (_hconv : m.converting = false) (_herr : m.err = none)
    (hcur : CursorOk m) :
    (∀ k, isUpKey k →
      m.Update (.key k) = ({ m with selected := max (m.selected - 1) 0 }, none) ∧
      (m.selected = 0 → m.Update (.key k) = (m, none))) ∧
    (∀ k, isDownKey k →
      (m.items ≠ [] → m.Update (.key k) =
        ({ m with selected := min (m.selected + 1) ((m.items.length : Int) - 1) }, none)) ∧
      (m.selected = (m.items.length : Int) - 1 → m.Update (.key k) = (m, none))) ∧
    (m.items = [] → ∀ k, isUpKey k ∨ isDownKey k → m.Update (.key k) = (m, none)) := by
  obtain ⟨h0, h1, h2⟩ := hcur
  have hup := Update_up m
  have hdown := Update_down m
  refine ⟨fun k hk => ⟨?_, fun hz => ?_⟩, fun k hk => ⟨fun hne => ?_, fun hl => ?_⟩,
    fun he k hk => ?_⟩
  · rw [hup k hk]
    split_ifs with c
    · rw [max_eq_left (by omega)]
    · have : m.selected = 0 := by omega
      rw [max_eq_right (by omega)]
      cases m
      simp_all
  · rw [hup k hk, if_neg (by omega)]
  · rw [hdown k hk]
    have := h1 hne
    split_ifs with c
    · rw [min_eq_left (by omega)]
    · rw [min_eq_right (by omega)]
      have hs : m.selected = (m.items.length : Int) - 1 := by omega
      cases m
      simp_all
  · rw [hdown k hk, if_neg (by omega)]
  · have hs := h2 he
    have hl : (m.items.length : Int) = 0 := by simp [he]
    rcases hk with hk | hk
    · rw [hup k hk, if_neg (by omega)]
    · rw [hdown k hk, if_neg (by omega)]

/-- Witness for C2 on a two-entry list with the cursor on the first entry. -/
theorem clamped_navigation_witness :
    (newModel sampleItems).converting = false ∧ (newModel sampleItems).err = none ∧
    CursorOk (newModel sampleItems) ∧
    (newModel sampleItems).Update (.key "down") =
      ({ items := sampleItems, selected := 1, converting := false, err := none }, none) ∧
    (newModel sampleItems).Update (.key "k") = (newModel sampleItems, none) :=
  ⟨rfl, rfl, by decide,
   ((clamped_navigation (newModel sampleItems) rfl rfl (by decide)).2.1 "down"
      (Or.inl rfl)).1 (by decide),
   ((clamped_navigation (newModel sampleItems) rfl rfl (by decide)).1 "k"
      (Or.inr rfl)).2 rfl⟩

/-- C3. Trigger dispatches iff possible: on "enter", `Update` returns the command
`m.convertToPDF` exactly when the list is non-empty and no conversion is in flight,
and then only sets `converting`; otherwise it returns `m` unchanged with no command.
In every run at most one conversion task is in flight. -/
theorem trigger_dispatches_iff_possible (m : model) :
    ((∃ c, (m.Update (.key "enter")).2 = some (.convertToPDF c)) ↔
      (m.items.length > 0 ∧ m.converting = false)) ∧
    (m.items.length > 0 ∧ m.converting = false →
      m.Update (.key "enter") =
        ({ m with converting := true }, some (.convertToPDF { m with converting := true }))) ∧
    (¬ (m.items.length > 0 ∧ m.converting = false) → m.Update (.key "enter") = (m, none)) ∧
    (∀ items msgs rt, Runtime.run items msgs = some rt → rt.inFlight ≤ 1) := by
  refine ⟨⟨fun ⟨c, hc⟩ => ?_, fun h => ?_⟩, fun h => ?_, fun h => ?_, fun items msgs rt h => ?_⟩
  · by_contra hn
    rw [Update_enter, if_neg hn] at hc
    simp at hc
  · rw [Update_enter, if_pos h]
    exact ⟨_, rfl⟩
  · rw [Update_enter, if_pos h]
  · rw [Update_enter, if_neg h]
  · have hb : rt.Balanced :=
      Runtime.foldlM_balanced msgs { m := newModel items, inFlight := 0 } rt rfl h
    unfold Runtime.Balanced at hb
    split_ifs at hb <;> omega

/-- Witness for C3: a run that triggers twice while the first task is in flight,
receives its outcome and triggers again ends with one task in flight. -/
theorem trigger_dispatches_iff_possible_witness :
    Runtime.run sampleItems [.key "enter", .key "enter", .successMsg, .key "enter"] =
      some sampleRuntime ∧
    sampleRuntime.inFlight ≤ 1 :=
  ⟨by decide,
   (trigger_dispatches_iff_possible (newModel sampleItems)).2.2.2 sampleItems
     [.key "enter", .key "enter", .successMsg, .key "enter"] sampleRuntime (by decide)⟩

/-- C4, evaluated on the code: after "enter" on the first of two entries the task is
dispatched for index 0, the entry `a.md`; a following "down" still moves the cursor
to index 1 while `converting` is set, and the Converting view then names `b.md`. -/
theorem navigation_while_converting_moves_cursor (r : Renderer) :
    deliverAll (newModel sampleItems) [.key "enter", .key "down"] =
      { items := sampleItems, selected := 1, converting := true, err := none } ∧
    (newModel sampleItems).Update (.key "enter") =
      ({ items := sampleItems, selected := 0, converting := true, err := none },
       some (.convertToPDF
         { items := sampleItems, selected := 0, converting := true, err := none })) ∧
    index sampleItems 0 = some { filename := str "a.md", modTime := 0, path := str "a.md" } ∧
    (({ items := sampleItems, selected := 0, converting := true, err := none } : model).Update
      (.key "down")) =
      ({ items := sampleItems, selected := 1, converting := true, err := none }, none) ∧
    model.View r { items := sampleItems, selected := 0, converting := true, err := none } =
      some (str "Converting a.md to PDF...\nPress q to quit") ∧
    model.View r { items := sampleItems, selected := 1, converting := true, err := none } =
      some (str "Converting b.md to PDF...\nPress q to quit") := by
  refine ⟨by decide, by decide, by decide, by decide, ?_, ?_⟩ <;> rfl

/-- C5 fails as stated: in the Error state reached by a failed conversion, "down"
moves the cursor and "enter" dispatches a conversion. -/
theorem error_state_not_frozen :
    deliverAll (newModel sampleItems) [.key "enter", .errorMsg (str "boom")] =
      sampleErrorModel ∧
    sampleErrorModel.err ≠ none ∧ ¬ isQuitKey "down" ∧ ¬ isQuitKey "enter" ∧
    sampleErrorModel.Update (.key "down") ≠ (sampleErrorModel, none) ∧
    (sampleErrorModel.Update (.key "down")).1.selected = 1 ∧
    sampleErrorModel.Update (.key "enter") ≠ (sampleErrorModel, none) ∧
    (sampleErrorModel.Update (.key "enter")).1.converting = true ∧
    (sampleErrorModel.Update (.key "enter")).2 =
      some (.convertToPDF { sampleErrorModel with converting := true }) := by
  decide

/-- C5 as amended: in the Error state every message leaves an error set, and every
key other than the quit keys retains the same error and the list, so the view stays
the Error view; the navigation keys return no command and leave `converting` alone,
"enter" leaves `selected` alone, and every remaining key returns the model unchanged
with no command. -/
theorem error_state_retained (r : Renderer) (m : model) (e : GoString)
    (herr : m.err = some e) :
    (∀ msg, (m.Update msg).1.err ≠ none) ∧
    (∀ k, ¬ isQuitKey k →
      (m.Update (.key k)).1.err = some e ∧
      (m.Update (.key k)).1.items = m.items ∧
      model.View r (m.Update (.key k)).1 =
        some (str "Error: " ++ e ++ str "\nPress q to quit") ∧
      (isUpKey k ∨ isDownKey k →
        (m.Update (.key k)).2 = none ∧ (m.Update (.key k)).1.converting = m.converting) ∧
      (k = "enter" → (m.Update (.key k)).1.selected = m.selected) ∧
      (¬ isUpKey k → ¬ isDownKey k → k ≠ "enter" → m.Update (.key k) = (m, none))) := by
  have hkey : ∀ k, (m.Update (.key k)).1.err = some e := by
    intro k
    simp only [model.Update]
    split_ifs <;> exact herr
  refine ⟨fun msg => ?_, fun k hq => ⟨hkey k, Update_items m _, ?_, fun hn => ?_, fun he => ?_,
    fun hu hd he => Update_otherKey m k hq hu hd he⟩⟩
  · cases msg with
    | key k => rw [hkey k]; simp
    | errorMsg e1 => simp [model.Update]
    | successMsg => simp [model.Update, herr]
    | other => simp [model.Update, herr]
  · simp only [model.View, hkey k]
  · rcases hn with hu | hd
    · rw [Update_up m k hu]
      split_ifs <;> exact ⟨rfl, rfl⟩
    · rw [Update_down m k hd]
      split_ifs <;> exact ⟨rfl, rfl⟩
  · subst he
    rw [Update_enter]
    split_ifs <;> rfl

/-- Witness for the amended C5 on the sample Error state and the key "x". -/
theorem error_state_retained_witness :
    sampleErrorModel.err = some (str "boom") ∧
    sampleErrorModel.Update (.key "x") = (sampleErrorModel, none) :=
  ⟨rfl,
   ((error_state_retained ⟨id, id, id, fun _ x => x, fun _ => []⟩ sampleErrorModel
      (str "boom") rfl).2 "x" (by decide)).2.2.2.2.2 (by decide) (by decide) (by decide)⟩

/-- C10. Rendering never indexes out of bounds: on every model reached from the
initial model `View` returns a string, and whenever `converting` is set the list is
non-empty and `items[selected]` exists; on the unreachable model with `converting`
set over an empty list `View` panics. -/
theorem view_total_on_reachable (r : Renderer) (items : List item) (msgs : List Msg) :
    (model.View r (deliverAll (newModel items) msgs)).isSome = true ∧
    ((deliverAll (newModel items) msgs).converting = true →
      items ≠ [] ∧ 0 ≤ (deliverAll (newModel items) msgs).selected ∧
      (deliverAll (newModel items) msgs).selected < items.length ∧
      (index (deliverAll (newModel items) msgs).items
        (deliverAll (newModel items) msgs).selected).isSome = true) ∧
    model.View r { items := [], selected := 0, converting := true, err := none } = none := by
  have hi : (deliverAll (newModel items) msgs).items = items :=
    deliverAll_items msgs (newModel items)
  obtain ⟨h0, h1, -⟩ := deliverAll_cursorOk msgs (newModel items) (newModel_cursorOk items)
  have hne := deliverAll_converting_nonempty msgs (newModel items)
    (fun h => by simp [newModel] at h)
  have key : (deliverAll (newModel items) msgs).converting = true →
      items ≠ [] ∧ 0 ≤ (deliverAll (newModel items) msgs).selected ∧
      (deliverAll (newModel items) msgs).selected < items.length ∧
      (index (deliverAll (newModel items) msgs).items
        (deliverAll (newModel items) msgs).selected).isSome = true := by
    intro hc
    have hn := hne hc
    have hlt := h1 hn
    have hn1 := hn
    have hlt1 := hlt
    rw [hi] at hn1 hlt1
    exact ⟨hn1, h0, hlt1, index_isSome _ _ h0 hlt⟩
  refine ⟨?_, key, rfl⟩
  unfold model.View
  cases herr : (deliverAll (newModel items) msgs).err with
  | some e => rfl
  | none =>
    simp only
    split_ifs with hc hz
    · have := (key hc).2.2.2
      cases hx : index (deliverAll (newModel items) msgs).items
          (deliverAll (newModel items) msgs).selected with
      | none => rw [hx] at this; simp at this
      | some it => rfl
    · rfl
    · rfl

/-- Witness for C10: the view after "enter" and two "down" keys on the sample list. -/
theorem view_total_on_reachable_witness :
    (deliverAll (newModel sampleItems) [.key "enter", .key "down", .key "down"]).converting
      = true ∧
    (deliverAll (newModel sampleItems) [.key "enter", .key "down", .key "down"]).selected
      < 2 :=
  ⟨by decide,
   ((view_total_on_reachable ⟨id, id, id, fun _ x => x, fun _ => []⟩ sampleItems
      [.key "enter", .key "down", .key "down"]).2.1 (by decide)).2.2.1⟩

/-- Witness for C1: three "down" keys on a two-entry list stop at the last index. -/
theorem cursor_bounds_invariant_witness :
    sampleItems ≠ [] ∧
    (deliverAll (newModel sampleItems) [.key "down", .key "down", .key "down"]).selected
      < 2 :=
  ⟨by decide,
   (cursor_bounds_invariant sampleItems [.key "down", .key "down", .key "down"]).2.2.1
     (by decide)⟩

/-! ## Conversion client -/

theorem str_md : str ".md" = [46, 109, 100] := by decide

theorem HasSuffix_iff (s suffix : GoString) : HasSuffix s suffix = true ↔ suffix <:+ s := by
  unfold HasSuffix
  rw [List.suffix_iff_eq_drop]
  constructor
  · intro h
    simp only [Bool.and_eq_true, decide_eq_true_eq, beq_iff_eq] at h
    exact h.2.symm
  · intro h
    have hl : suffix.length ≤ s.length := by
      have := congrArg List.length h
      rw [List.length_drop] at this
      omega
    simp only [Bool.and_eq_true, decide_eq_true_eq, beq_iff_eq]
    exact ⟨hl, h.symm⟩

theorem Ext_append_md (q : GoString) : Ext (q ++ [46, 109, 100]) = [46, 109, 100] := by
  have h2 : (q ++ [46, 109, 100] : GoString)[q.length + 2]? = some 100 := by
    rw [List.getElem?_append_right (by omega)]
    simp
  have h1 : (q ++ [46, 109, 100] : GoString)[q.length + 1]? = some 109 := by
    rw [List.getElem?_append_right (by omega)]
    simp
  have h0 : (q ++ [46, 109, 100] : GoString)[q.length]? = some 46 := by
    rw [List.getElem?_append_right (by omega)]
    simp
  have hlen : (q ++ [46, 109, 100] : GoString).length = q.length + 2 + 1 := by simp
  unfold Ext
  rw [hlen]
  rw [extLoop, h2]
  simp only [show ¬ ((100 : UInt8) = 47) by decide, show ¬ ((100 : UInt8) = 46) by decide,
    if_false]
  rw [extLoop, h1]
  simp only [show ¬ ((109 : UInt8) = 47) by decide, show ¬ ((109 : UInt8) = 46) by decide,
    if_false]
  rw [extLoop, h0]
  simp only [show ¬ ((46 : UInt8) = 47) by decide, if_false, if_true]
  simp

theorem outputPath_md (path : GoString) (h : HasSuffix path (str ".md") = true) :
    outputPath path = path.take (path.length - 3) ++ str ".pdf" := by
  have hs := h
  rw [HasSuffix_iff, str_md] at hs
  obtain ⟨q, rfl⟩ := hs
  unfold outputPath TrimSuffix
  rw [Ext_append_md]
  rw [str_md] at h
  rw [if_pos h]
  rfl

theorem Files.write_same (fs : Files) (path content : GoString) :
    fs.write path content path = some content := by
  simp [Files.write]

theorem Files.write_other (fs : Files) (path content q : GoString) (h : q ≠ path) :
    fs.write path content q = fs q := by
  simp [Files.write, h]

/-- C6. A non-200 status is an error outcome that leaves the filesystem untouched:
when the request reaches the service and the response has status `s ≠ 200` and body
`b`, `convertToPDF` returns the `errorMsg` "conversion failed with status: s,
body: b" (which contains the decimal `s` and `b`) together with the unchanged
filesystem, and once `Update` has delivered it the view is "Error: " followed by
that text. -/
theorem non_success_status_is_error (w : World) (m : model) (it : item)
    (content : GoString) (resp : Response)
    (hit : index m.items m.selected = some it)
    (hf1 : w.faults.createFormFile1 = none) (hf2 : w.faults.partWrite = none)
    (hf3 : w.faults.openSrc = none) (hsrc : w.files it.path = some content)
    (hf4 : w.faults.createFormFile2 = none) (hf5 : w.faults.copyIn = none)
    (hf6 : w.faults.writerClose = none) (hf7 : w.faults.newRequest = none)
    (hresp : w.service (conversionRequest w content) = .ok resp)
    (hs : resp.statusCode ≠ 200) :
    m.convertToPDF w =
      some (.errorMsg (statusError resp.statusCode resp.body), w.files) ∧
    statusError resp.statusCode resp.body =
      str "conversion failed with status: " ++ str (toString resp.statusCode) ++
        str ", body: " ++ resp.body ∧
    str (toString resp.statusCode) <:+: statusError resp.statusCode resp.body ∧
    resp.body <:+: statusError resp.statusCode resp.body ∧
    (∀ (r : Renderer) (m1 : model),
      model.View r (m1.Update (.errorMsg (statusError resp.statusCode resp.body))).1 =
        some (str "Error: " ++ statusError resp.statusCode resp.body ++
          str "\nPress q to quit")) := by
  refine ⟨?_, rfl, ?_, ?_, fun r m1 => rfl⟩
  · simp only [model.convertToPDF, hit, hf1, hf2, hf3, hsrc, hf4, hf5, hf6, hf7, hresp, hs,
      ne_eq, not_false_eq_true, if_true]
  · exact ⟨str "conversion failed with status: ", str ", body: " ++ resp.body, by
      simp [statusError, List.append_assoc]⟩
  · exact ⟨str "conversion failed with status: " ++ str (toString resp.statusCode) ++
      str ", body: ", [], by simp [statusError, List.append_assoc]⟩

/-- Witness for C6: status 503 with body "busy". -/
theorem non_success_status_is_error_witness :
    index (newModel sampleItems).items (newModel sampleItems).selected =
      some { filename := str "a.md", modTime := 0, path := str "a.md" } ∧
    busyWorld.files (str "a.md") = some (str "# title") ∧
    (newModel sampleItems).convertToPDF busyWorld =
      some (.errorMsg (str "conversion failed with status: 503, body: busy"),
        busyWorld.files) :=
  ⟨by decide, by decide,
   (non_success_status_is_error busyWorld (newModel sampleItems)
      { filename := str "a.md", modTime := 0, path := str "a.md" } (str "# title")
      { statusCode := 503, body := str "busy", bodyErr := none }
      (by decide) rfl rfl rfl (by decide) rfl rfl rfl rfl rfl (by decide)).1⟩

/-- C7. A successful conversion writes exactly the response body to the derived
output path: for a source path ending in ".md", a 200 response with body `B` and no
I/O failure, `convertToPDF` returns `successMsg`; the output path
`TrimSuffix(F, Ext(F)) + ".pdf"` is `F` without its last three bytes followed by
".pdf"; afterwards the file there holds exactly `B` and every other path is as
before. -/
theorem success_writes_body (w : World) (m : model) (it : item) (content B : GoString)
    (hit : index m.items m.selected = some it)
    (hmd : HasSuffix it.path (str ".md") = true)
    (hfaults : w.faults = Faults.none)
    (hsrc : w.files it.path = some content)
    (hresp : w.service (conversionRequest w content) =
      .ok { statusCode := 200, body := B, bodyErr := none }) :
    (∃ fs : Files, m.convertToPDF w = some (.successMsg, fs) ∧
      fs (outputPath it.path) = some B ∧
      (∀ q, q ≠ outputPath it.path → fs q = w.files q)) ∧
    outputPath it.path = TrimSuffix it.path (Ext it.path) ++ str ".pdf" ∧
    outputPath it.path = it.path.take (it.path.length - 3) ++ str ".pdf" := by
  refine ⟨⟨w.files.write (outputPath it.path) B, ?_, Files.write_same _ _ _,
    fun q hq => Files.write_other _ _ _ q hq⟩, rfl, outputPath_md it.path hmd⟩
  simp only [model.convertToPDF, hit, hfaults, Faults.none, hsrc, hresp, ne_eq,
    not_true_eq_false, if_false]

/-- Witness for C7: `a.md` converted with body "%PDF" is written to `a.pdf`. -/
theorem success_writes_body_witness :
    HasSuffix (str "a.md") (str ".md") = true ∧
    outputPath (str "a.md") = str "a.pdf" ∧
    (∃ fs : Files, (newModel sampleItems).convertToPDF pdfWorld = some (.successMsg, fs) ∧
      fs (outputPath (str "a.md")) = some (str "%PDF") ∧
      (∀ q, q ≠ outputPath (str "a.md") → fs q = pdfWorld.files q)) :=
  ⟨by decide, by decide,
   (success_writes_body pdfWorld (newModel sampleItems)
      { filename := str "a.md", modTime := 0, path := str "a.md" } (str "# title")
      (str "%PDF") (by decide) (by decide) rfl (by decide) rfl).1⟩

/-! ## Configuration wizard -/

/-- C9, evaluated on the code: in the EditingEndpoint state the single-character key
"q" does not append; `Update` returns the model unchanged together with `tea.Quit`,
while the view of that state names only Ctrl+C as the quit key. A single character of
two bytes is not appended either. -/
theorem wizard_q_quits_instead_of_appending :
    initialConfigModel.index = 0 ∧ (str "q").length = 1 ∧
    initialConfigModel.Update (.key "q") = (initialConfigModel, some .quit) ∧
    (initialConfigModel.Update (.key "q")).1.endpoint ≠ initialConfigModel.endpoint ++ str "q" ∧
    initialConfigModel.Update (.key "x") =
      ({ initialConfigModel with endpoint := str "http://localhost:3000x" }, none) ∧
    initialConfigModel.Update (.key "é") = (initialConfigModel, none) ∧
    str "\n\nPress Enter to continue, Ctrl+C to quit" <:+ initialConfigModel.View := by
  refine ⟨rfl, by decide, by decide, by decide, by decide, by decide,
    str "Welcome to Markdown to PDF Converter!\n\n" ++
      str "Let\x27s set up your configuration.\n\n" ++
      (str "Enter Gotenberg endpoint (default: http://localhost:3000):\n" ++
        initialConfigModel.endpoint), ?_⟩
  simp only [configModel.View, initialConfigModel, if_true, List.append_assoc]

/-- Every key of one byte other than "q" is appended in the EditingEndpoint state. -/
theorem wizard_appends_other_bytes (m : configModel) (k : String) (hidx : m.index = 0)
    (hlen : (str k).length = 1) (hq : k ≠ "q") :
    m.Update (.key k) = ({ m with endpoint := m.endpoint ++ str k }, none) := by
  have h1 : ¬ (k = "ctrl+c" ∨ k = "q") := by
    rintro (rfl | rfl)
    · revert hlen; decide
    · exact hq rfl
  have h2 : k ≠ "enter" := by
    rintro rfl
    revert hlen; decide
  have h3 : k ≠ "backspace" := by
    rintro rfl
    revert hlen; decide
  simp only [configModel.Update, if_neg h1, if_neg h2, if_neg h3]
  rw [if_pos ⟨hidx, hlen⟩]


/-! ## File lister -/

theorem str_sep : str "/" = [47] := by decide

theorem suffix_md_after_sep (d n : GoString) :
    ([46, 109, 100] : GoString) <:+ d ++ [47] ++ n ↔ ([46, 109, 100] : GoString) <:+ n := by
  constructor
  · intro h
    rcases List.eq_nil_or_concat n with rfl | ⟨n1, c, rfl⟩
    · rw [List.append_nil] at h
      obtain ⟨t, ht⟩ := h
      have := congrArg List.getLast? ht
      simp at this
    rcases List.eq_nil_or_concat n1 with rfl | ⟨n2, b, rfl⟩
    · obtain ⟨t, ht⟩ := h
      have := congrArg (fun l => (l.reverse)[1]?) ht
      simp at this
    rcases List.eq_nil_or_concat n2 with rfl | ⟨n3, a, rfl⟩
    · obtain ⟨t, ht⟩ := h
      have := congrArg (fun l => (l.reverse)[2]?) ht
      simp at this
    · obtain ⟨t, ht⟩ := h
      have h0 := congrArg (fun l => (l.reverse)[0]?) ht
      have h1 := congrArg (fun l => (l.reverse)[1]?) ht
      have h2 := congrArg (fun l => (l.reverse)[2]?) ht
      simp at h0 h1 h2
      subst h0 h1 h2
      exact ⟨n3, by simp⟩
  · rintro ⟨t, rfl⟩
    exact ⟨d ++ [47] ++ t, by simp⟩

theorem HasSuffix_Join (dir name : GoString) :
    HasSuffix (Join dir name) (str ".md") = HasSuffix name (str ".md") := by
  unfold Join
  split_ifs with h
  · rfl
  · rw [Bool.eq_iff_iff, HasSuffix_iff, HasSuffix_iff, str_md, str_sep]
    exact suffix_md_after_sep dir name

theorem candidates_append (xs ys : List (GoString × Entry)) :
    candidates (xs ++ ys) = candidates xs ++ candidates ys := by
  simp [candidates]

mutual
theorem walk_eq_candidates : ∀ (e : Entry) (path : GoString) (acc : List item),
    HasSuffix path (str ".md") = HasSuffix e.Name (str ".md") →
    walk walkFn e path acc = acc ++ candidates (preorder e path)
  | .file n t, path, acc, h => by
    have h1 : HasSuffix path (str ".md") = HasSuffix n (str ".md") := h
    rw [walk, preorder]
    cases hn : HasSuffix n (str ".md") <;>
      simp [walkFn, candidates, List.filter, Entry.IsDir, Entry.Name, Entry.ModTime, h1, hn]
  | .dir n t children, path, acc, _ => by
    rw [walk, preorder]
    have hfn : walkFn path (.dir n t children) acc = acc := by
      simp [walkFn, Entry.IsDir]
    rw [hfn, walkNames_eq_candidates children path acc]
    simp [candidates, Entry.IsDir]
theorem walkNames_eq_candidates : ∀ (cs : List Entry) (path : GoString) (acc : List item),
    walkNames walkFn cs path acc = acc ++ candidates (preorderAll cs path)
  | [], path, acc => by
    rw [walkNames, preorderAll]
    simp [candidates]
  | c :: rest, path, acc => by
    rw [walkNames, preorderAll, candidates_append,
      walk_eq_candidates c (Join path c.Name) acc (HasSuffix_Join path c.Name),
      walkNames_eq_candidates rest path, List.append_assoc]
end

/-- C8. File Lister exactness and order: for every directory tree, `initialModel`
returns in `items` exactly the entries of the pre-order listing of the tree that are
not directories and whose name ends with ".md", in listing order, each with its
name, modification time and relative path; the cursor starts at 0 with no
conversion and no error. The suffix test on the path, which the code makes, selects
the same entries as the test on the name. -/
theorem file_lister_exact_in_preorder (cwd : List Entry) :
    (initialModel cwd).items = candidates (preorder (.dir (str ".") 0 cwd) (str ".")) ∧
    (initialModel cwd).items = candidates (preorderAll cwd (str ".")) ∧
    initialModel cwd = newModel (initialModel cwd).items := by
  have h := walk_eq_candidates (.dir (str ".") 0 cwd) (str ".") [] rfl
  rw [List.nil_append] at h
  refine ⟨h, ?_, rfl⟩
  show walk walkFn (.dir (str ".") 0 cwd) (str ".") [] = _
  rw [h, preorder]
  simp [candidates, Entry.IsDir]

end ReporterMerger
